import Mathlib

/-!
Verification of the Opteo/maps repository (src/maps.ts, src/types.ts).

The TypeScript source is shallowly embedded below.  JavaScript numbers are
modelled as real numbers (exact arithmetic); the planar distance uses
`Real.sqrt` exactly as `calculateCoordinateSeparation` uses `Math.sqrt`.
Code that can throw is modelled in `Except`: a thrown `new Error(msg)`
becomes `.error (.appError msg)`, and the implicit JavaScript `TypeError`
raised by indexing `undefined` (for example `polygon[0][0]` on an empty
ring) becomes `.error .typeError`.  The network call of
`doOpenStreetMapRequest` is not modelled; instead the already-received
response (`OpenStreetMapResponse | undefined`) is an explicit argument of
`getGeojsonCoordinates` and `generateMapUrl`.

The module-level mutable `constants` object is threaded as an explicit
`Constants` argument (the test suite mutates it in place); `constants`
below holds the source's default values 200 and 10.
-/

namespace Opteo

/-- The `ErrorMessage` enum of src/types.ts. -/
inductive ErrorMessage where
  | NO_API_KEY
  | NO_LOCATION
  | FAILED_OPENSTREETMAP_REQUEST
  | UNKNOWN_GEOJSON_TYPE
  | NO_COORDINATES_FOUND
deriving DecidableEq

/-- A runtime failure: either a thrown `Error` carrying an `ErrorMessage`,
or the JavaScript `TypeError` produced by reading a property of
`undefined` (e.g. `polygon[0][0]` when `polygon` is empty). -/
inductive JsError where
  | appError : ErrorMessage → JsError
  | typeError : JsError
deriving DecidableEq

/-- The `Location` interface of src/types.ts.  `target_type` is an optional
string (the `GoogleLocationTargetType` union is a set of string literals). -/
structure Location where
  canonical_name : String
  target_type : Option String
deriving DecidableEq

/-- The `Coordinate` interface of src/types.ts, generic in the numeric
scalar so that the string-building functions can also be exercised on
printable scalars; the condensation pipeline always uses `Coordinate ℝ`. -/
structure Coordinate (α : Type) where
  longitude : α
  latitude : α
  distance : α
deriving DecidableEq

/-- A raw `[longitude, latitude]` coordinate pair.  The source stores these
as `number[]` but only ever reads indices 0 and 1. -/
abbrev RawPoint := ℝ × ℝ

/-- The `OpenStreetMapGeoJson` union of src/types.ts (discriminated by the
`type` string tag). -/
inductive OpenStreetMapGeoJson where
  | point (coordinates : List ℝ)
  | lineString (coordinates : List (List RawPoint))
  | polygon (coordinates : List (List RawPoint))
  | multiPolygon (coordinates : List (List (List RawPoint)))

/-- The `OpenStreetMapResponse` interface of src/types.ts. -/
structure OpenStreetMapResponse where
  geojson : Option OpenStreetMapGeoJson

/-- The module-level `constants` object of src/maps.ts (mutable in the
source, threaded explicitly here). -/
structure Constants where
  DISTANCE_INTERVAL_FREQUENCY : ℕ
  MAX_POLYGON_COUNT : ℕ

/-- Default values from src/maps.ts lines 19 and 26. -/
def constants : Constants := ⟨200, 10⟩

/-- The entries of the `style` array of src/maps.ts lines 30-51. -/
def styleParts : List String :=
  ["&format=png",
   "maptype=roadmap",
   "style=feature:landscape.man_made|element:geometry|color:0xf7f1df",
   "style=feature:landscape.natural|element:geometry|color:0xd0e3b4",
   "style=feature:landscape.natural.terrain|element:geometry|visibility:off",
   "style=feature:poi|element:labels|visibility:off",
   "style=feature:poi.business|visibility:off",
   "style=feature:poi.medical|element:geometry|color:0xfbd3da",
   "style=feature:poi.park|element:geometry|color:0xbde6ab",
   "style=feature:road|element:geometry.stroke|visibility:off",
   "style=feature:road|element:labels|visibility:off",
   "style=feature:road.arterial|element:geometry.fill|color:0xffffff",
   "style=feature:road.highway|element:geometry.fill|color:0xffe15f",
   "style=feature:road.highway|element:geometry.stroke|color:0xefd151",
   "style=feature:road.local|element:geometry.fill|color:0xffffff",
   "style=feature:transit|element:labels.icon|visibility:off",
   "style=feature:transit|element:labels.text|visibility:off",
   "style=feature:transit.station.airport|element:geometry.fill|color:0xcfb2db",
   "style=feature:transit.station.bus|visibility:off",
   "style=feature:water|element:geometry|color:0xa2daf2"]

/-- `style = [...].join('&')` of src/maps.ts line 51. -/
def style : String := String.intercalate "&" styleParts

/-- `calculateCoordinateSeparation` of src/maps.ts lines 201-212:
`sqrt(|a[0]-b[0]|^2 + |a[1]-b[1]|^2)`. -/
noncomputable def calculateCoordinateSeparation (coordinateA coordinateB : RawPoint) : ℝ :=
  Real.sqrt (|coordinateA.1 - coordinateB.1| ^ 2 + |coordinateA.2 - coordinateB.2| ^ 2)

/-- The first loop of `condenseCoordinates` (src/maps.ts lines 147-157)
restricted to the entries after index 0: each point is annotated with its
distance from its predecessor.  `prev` is the previous raw coordinate. -/
noncomputable def coordinatesWithDistances (prev : RawPoint) :
    List RawPoint → List (Coordinate ℝ)
  | [] => []
  | p :: ps => ⟨p.1, p.2, calculateCoordinateSeparation p prev⟩ :: coordinatesWithDistances p ps

/-- The `forEach` of src/maps.ts lines 180-189 for the entries after
index 0: accumulate each entry's distance, keep the entry (and reset the
accumulator to 0) when the accumulated distance strictly exceeds
`distanceInterval`.  The entry at index 0 is always kept by the caller
(`condenseRing`), and after processing it the accumulator is `0 + 0 = 0`,
which is the `acc` this loop starts from. -/
noncomputable def condenseLoop (distanceInterval : ℝ) :
    List (Coordinate ℝ) → ℝ → List (Coordinate ℝ)
  | [], _ => []
  | c :: cs, acc =>
    if acc + c.distance > distanceInterval then c :: condenseLoop distanceInterval cs 0
    else condenseLoop distanceInterval cs (acc + c.distance)

/-- The body of the `rawCoordinates.map` callback of src/maps.ts lines
138-192, for one ring, with `distance_interval_frequency` already chosen.
On the empty ring, `polygon[0][0]` is a JavaScript `TypeError`
(`polygon[0]` is `undefined`).  Otherwise the first point is recorded with
distance 0, `totalDistance` is the sum of all predecessor distances, the
interval is `totalDistance / distance_interval_frequency`, and the
remaining points pass through `condenseLoop`. -/
noncomputable def condenseRing (frequency : ℕ) :
    List RawPoint → Except JsError (List (Coordinate ℝ))
  | [] => .error .typeError
  | p0 :: rest =>
    .ok (⟨p0.1, p0.2, 0⟩ ::
      condenseLoop
        (((coordinatesWithDistances p0 rest).map Coordinate.distance).sum / (frequency : ℝ))
        (coordinatesWithDistances p0 rest) 0)

/-- Frequency selection of src/maps.ts lines 159-171: MultiPolygon rings
at position index greater than 1 use the hard-coded coarse frequency 10;
every other ring uses `constants.DISTANCE_INTERVAL_FREQUENCY`. -/
def ringFrequency (isMultiPolygon : Bool) (distance_interval_frequency : ℕ) (index : ℕ) : ℕ :=
  if isMultiPolygon = true ∧ 1 < index then 10 else distance_interval_frequency

/-- The `rawCoordinates.map` of src/maps.ts line 138, carrying the ring
position index used by the frequency selection.  A `TypeError` thrown for
one ring aborts the whole `map`, as in JavaScript. -/
noncomputable def condenseRings (isMultiPolygon : Bool) (distance_interval_frequency : ℕ) :
    ℕ → List (List RawPoint) → Except JsError (List (List (Coordinate ℝ)))
  | _, [] => .ok []
  | index, p :: ps =>
    match condenseRing (ringFrequency isMultiPolygon distance_interval_frequency index) p with
    | .error e => .error e
    | .ok r =>
      match condenseRings isMultiPolygon distance_interval_frequency (index + 1) ps with
      | .error e => .error e
      | .ok rs => .ok (r :: rs)

/-- The `.sort((a, b) => b[0].length - a[0].length)` of src/maps.ts line
130.  `Array.prototype.sort` with a comparator is a stable sort; it is
modelled by the stable `List.insertionSort` under the corresponding total
preorder (first ring's point count, descending).  `headD []` models `a[0]`
(never undefined on the inputs the comparator is defined for). -/
def sortPolygonsByFirstRingLength (polys : List (List (List RawPoint))) :
    List (List (List RawPoint)) :=
  List.insertionSort (fun a b => (b.headD []).length ≤ (a.headD []).length) polys

/-- `condenseCoordinates` of src/maps.ts lines 115-193.  For Polygon and
LineString, `coordinates[0]` on an empty list is `undefined` and the
subsequent `polygon[0][0]` in the map callback is a `TypeError`.  For
MultiPolygon, the polygons are sorted by first-ring length descending, the
top `MAX_POLYGON_COUNT` are kept, and all their rings are flattened
(`rawCoordinates.push(...polygon)`) before condensation. -/
noncomputable def condenseCoordinates (c : Constants) (geoJson : OpenStreetMapGeoJson) :
    Except JsError (List (List (Coordinate ℝ))) :=
  match geoJson with
  | .point _ => .ok [[]]
  | .polygon coordinates =>
    match coordinates with
    | [] => .error .typeError
    | r :: _ => condenseRings false c.DISTANCE_INTERVAL_FREQUENCY 0 [r]
  | .lineString coordinates =>
    match coordinates with
    | [] => .error .typeError
    | r :: _ => condenseRings false c.DISTANCE_INTERVAL_FREQUENCY 0 [r]
  | .multiPolygon coordinates =>
    condenseRings true c.DISTANCE_INTERVAL_FREQUENCY 0
      (((sortPolygonsByFirstRingLength coordinates).take c.MAX_POLYGON_COUNT).flatten)

/-- `getGeojsonCoordinates` of src/maps.ts lines 58-66, with the network
response passed in as an argument: an absent response or a response
without a `geojson` field yields the empty list of rings. -/
noncomputable def getGeojsonCoordinates (c : Constants)
    (openStreetMapResponse : Option OpenStreetMapResponse) :
    Except JsError (List (List (Coordinate ℝ))) :=
  match openStreetMapResponse with
  | none => .ok []
  | some response =>
    match response.geojson with
    | none => .ok []
    | some geojson => condenseCoordinates c geojson

/-- First `replace` of `buildEncodedCanonicalName` (src/maps.ts line 220):
the global regex `/,+\s/g` replaced by `','`.  A match is a maximal run of
commas followed by exactly one whitespace character; the scan resumes
after the match.  The second argument counts commas of a pending run not
yet known to be followed by whitespace. -/
def stripCommaWsGo : List Char → ℕ → List Char
  | [], 0 => []
  | [], n + 1 => List.replicate (n + 1) ','
  | c :: rest, 0 => if c = ',' then stripCommaWsGo rest 1 else c :: stripCommaWsGo rest 0
  | c :: rest, n + 1 =>
    if c = ',' then stripCommaWsGo rest (n + 2)
    else if c.isWhitespace then ',' :: stripCommaWsGo rest 0
    else List.replicate (n + 1) ',' ++ c :: stripCommaWsGo rest 0

/-- Second `replace` of `buildEncodedCanonicalName` (src/maps.ts line
220): the global regex `/\s+/g` replaced by `'+'`; each maximal whitespace
run becomes a single plus sign. -/
def plusWsGo : List Char → Bool → List Char
  | [], _ => []
  | c :: rest, inRun =>
    if c.isWhitespace then
      if inRun then plusWsGo rest true else '+' :: plusWsGo rest true
    else c :: plusWsGo rest false

/-- `buildEncodedCanonicalName` of src/maps.ts lines 219-221.  `\s` is
modelled by `Char.isWhitespace` (space, tab, CR, LF), which agrees with
the JavaScript class on the characters exercised here. -/
def buildEncodedCanonicalName (canonicalName : String) : String :=
  String.mk (plusWsGo (stripCommaWsGo canonicalName.toList 0) false)

/-- The path-style prefix used as the inner `reduce` seed in
`buildLocationShape` (src/maps.ts line 244). -/
def pathStyle : String := "&path=color:0x00000077|weight:1|fillcolor:0xAA000033"

/-- `buildLocationShape` of src/maps.ts lines 228-252.  `fmt` renders a
scalar the way JavaScript template interpolation renders the number; the
unreachable `[] => ""` branch corresponds to `polygon[0]` under the
`polygon.length > 2` guard. -/
def buildLocationShape {α : Type} (fmt : α → String) (location : Location)
    (coordinates : List (List (Coordinate α))) : Except JsError String :=
  if coordinates.length = 0 then .error (.appError .NO_COORDINATES_FOUND)
  else
    .ok (coordinates.foldl
      (fun fullPath polygon =>
        if polygon.length > 2 then
          fullPath ++
            polygon.foldl
              (fun thisPath c => thisPath ++ "|" ++ fmt c.latitude ++ "," ++ fmt c.longitude)
              pathStyle ++
            (match polygon with
             | p0 :: _ => "|" ++ fmt p0.latitude ++ "," ++ fmt p0.longitude
             | [] => "")
        else fullPath ++ "&center=" ++ buildEncodedCanonicalName location.canonical_name)
      style)

/-- `buildMapUrl` of src/maps.ts lines 258-272. -/
def buildMapUrl {α : Type} (fmt : α → String) (location : Location)
    (coordinates : List (List (Coordinate α))) (apiKey : String) : Except JsError String :=
  match buildLocationShape fmt location coordinates with
  | .error e => .error e
  | .ok proximities =>
    .ok ("https://maps.googleapis.com/maps/api/staticmap" ++ "?size=600x400&scale=2" ++
      proximities ++ "&key=" ++ apiKey)

/-- `generateMapUrl` of src/maps.ts lines 278-300, with the API key and
location passed as `Option` to model `undefined` arguments and the network
response passed in as an argument.  The source checks `canonical_name`
and `target_type` for `undefined`; `canonical_name` is always present in
the model, so only `target_type` is checked. -/
noncomputable def generateMapUrl (fmt : ℝ → String) (c : Constants)
    (location : Option Location) (apiKey : Option String)
    (openStreetMapResponse : Option OpenStreetMapResponse) : Except JsError String :=
  match apiKey with
  | none => .error (.appError .NO_API_KEY)
  | some key =>
    match location with
    | none => .error (.appError .NO_LOCATION)
    | some loc =>
      match loc.target_type with
      | none => .error (.appError .NO_LOCATION)
      | some _ =>
        match getGeojsonCoordinates c openStreetMapResponse with
        | .error e => .error e
        | .ok coordinates => buildMapUrl fmt loc coordinates key

/-! Helper lemmas. -/

/-- A planar separation is never negative. -/
lemma calculateCoordinateSeparation_nonneg (a b : RawPoint) :
    0 ≤ calculateCoordinateSeparation a b := Real.sqrt_nonneg _

/-- Evaluation helper: a separation whose squared differences sum to a
perfect square. -/
lemma calculateCoordinateSeparation_eq (a b c d r : ℝ) (hr : 0 ≤ r)
    (h : |a - c| ^ 2 + |b - d| ^ 2 = r ^ 2) :
    calculateCoordinateSeparation (a, b) (c, d) = r := by
  show Real.sqrt (|a - c| ^ 2 + |b - d| ^ 2) = r
  rw [h]
  exact Real.sqrt_sq hr

/-- Every annotated distance is nonnegative. -/
lemma mem_coordinatesWithDistances_nonneg (prev : RawPoint) (l : List RawPoint) :
    ∀ c ∈ coordinatesWithDistances prev l, 0 ≤ c.distance := by
  induction l generalizing prev with
  | nil => intro c hc; simp [coordinatesWithDistances] at hc
  | cons p ps ih =>
    intro c hc
    rw [coordinatesWithDistances] at hc
    rcases List.mem_cons.mp hc with h | h
    · subst h; exact Real.sqrt_nonneg _
    · exact ih p c h

/-- The annotated list pairs every point with its immediate predecessor in
the original ring. -/
lemma coordinatesWithDistances_eq_zipWith (prev : RawPoint) (l : List RawPoint) :
    coordinatesWithDistances prev l =
      List.zipWith (fun a b => (⟨a.1, a.2, calculateCoordinateSeparation a b⟩ : Coordinate ℝ))
        l (prev :: l) := by
  induction l generalizing prev with
  | nil => rfl
  | cons p ps ih => rw [coordinatesWithDistances, List.zipWith_cons_cons, ih p]

/-- The condensation loop only ever keeps elements of its input, in
order. -/
lemma condenseLoop_sublist (I : ℝ) :
    ∀ (l : List (Coordinate ℝ)) (acc : ℝ), List.Sublist (condenseLoop I l acc) l := by
  intro l
  induction l with
  | nil => intro acc; rw [condenseLoop]
  | cons c cs ih =>
    intro acc
    rw [condenseLoop]
    by_cases h : acc + c.distance > I
    · rw [if_pos h]; exact List.Sublist.cons₂ c (ih 0)
    · rw [if_neg h]; exact List.Sublist.cons c (ih (acc + c.distance))

/-- A list of nonnegative reals summing to zero is all zeros. -/
lemma sum_eq_zero_of_nonneg :
    ∀ (l : List ℝ), (∀ x ∈ l, 0 ≤ x) → l.sum = 0 → ∀ x ∈ l, x = 0 := by
  intro l
  induction l with
  | nil => intro _ _ x hx; simp at hx
  | cons a t ih =>
    intro hnn hsum x hx
    have ha : 0 ≤ a := hnn a (List.mem_cons_self a t)
    have htn : ∀ y ∈ t, 0 ≤ y := fun y hy => hnn y (List.mem_cons_of_mem a hy)
    have hts : 0 ≤ t.sum := List.sum_nonneg htn
    rw [List.sum_cons] at hsum
    rcases List.mem_cons.mp hx with h | h
    · subst h; linarith
    · exact ih htn (by linarith) x h

/-- With a zero interval and all-zero distances, the strict comparison
never fires and the loop keeps nothing. -/
lemma condenseLoop_zero :
    ∀ (l : List (Coordinate ℝ)) (acc : ℝ), (∀ c ∈ l, c.distance = 0) → acc ≤ 0 →
      condenseLoop 0 l acc = [] := by
  intro l
  induction l with
  | nil => intro acc _ _; rfl
  | cons c cs ih =>
    intro acc h hacc
    have hc : c.distance = 0 := h c (List.mem_cons_self c cs)
    have hnot : ¬ (acc + c.distance > 0) := by
      simp only [hc, add_zero, gt_iff_lt, not_lt]
      exact hacc
    rw [condenseLoop, if_neg hnot]
    exact ih (acc + c.distance) (fun x hx => h x (List.mem_cons_of_mem c hx)) (by rw [hc]; linarith)

/-- Each kept element consumed accumulated distance strictly above the
interval over disjoint segments, so the number of kept elements times the
interval is strictly below the available distance. -/
lemma condenseLoop_length_mul_lt (I : ℝ) :
    ∀ (l : List (Coordinate ℝ)) (acc : ℝ), (∀ c ∈ l, 0 ≤ c.distance) →
      condenseLoop I l acc ≠ [] →
      ((condenseLoop I l acc).length : ℝ) * I < acc + (l.map Coordinate.distance).sum := by
  intro l
  induction l with
  | nil => intro acc _ hne; exact absurd rfl hne
  | cons c cs ih =>
    intro acc hnn hne
    have hcs : ∀ x ∈ cs, 0 ≤ x.distance := fun x hx => hnn x (List.mem_cons_of_mem c hx)
    have hsum : 0 ≤ (cs.map Coordinate.distance).sum := by
      refine List.sum_nonneg ?_
      intro x hx
      rcases List.mem_map.mp hx with ⟨y, hy, rfl⟩
      exact hcs y hy
    rw [condenseLoop] at hne ⊢
    by_cases h : acc + c.distance > I
    · rw [if_pos h] at hne ⊢
      by_cases h2 : condenseLoop I cs 0 = []
      · rw [h2]
        simp only [List.length_cons, List.length_nil, List.map_cons, List.sum_cons]
        push_cast
        nlinarith [h, hsum]
      · have ihh := ih 0 hcs h2
        simp only [List.length_cons, List.map_cons, List.sum_cons]
        push_cast
        nlinarith [ihh, h]
    · rw [if_neg h] at hne ⊢
      have ihh := ih (acc + c.distance) hcs hne
      simp only [List.map_cons, List.sum_cons]
      linarith [ihh]

/-- Core bound: a condensed ring never exceeds its frequency in length. -/
lemma condenseRing_length_le (f : ℕ) (hf : 1 ≤ f) (ring : List RawPoint)
    (out : List (Coordinate ℝ)) (h : condenseRing f ring = .ok out) : out.length ≤ f := by
  cases ring with
  | nil => simp [condenseRing] at h
  | cons p0 rest =>
    simp only [condenseRing, Except.ok.injEq] at h
    subst h
    set D := coordinatesWithDistances p0 rest with hD
    set total := (D.map Coordinate.distance).sum with htotal
    have hnn : ∀ c ∈ D, 0 ≤ c.distance := mem_coordinatesWithDistances_nonneg p0 rest
    have hmapnn : ∀ x ∈ D.map Coordinate.distance, 0 ≤ x := by
      intro x hx
      rcases List.mem_map.mp hx with ⟨y, hy, rfl⟩
      exact hnn y hy
    have htnn : 0 ≤ total := List.sum_nonneg hmapnn
    by_cases h0 : total = 0
    · have hall : ∀ c ∈ D, c.distance = 0 := fun c hc =>
        sum_eq_zero_of_nonneg (D.map Coordinate.distance) hmapnn h0 c.distance
          (List.mem_map_of_mem Coordinate.distance hc)
      rw [h0, zero_div, condenseLoop_zero D 0 hall (le_refl 0)]
      simpa using hf
    · have htpos : 0 < total := lt_of_le_of_ne htnn (Ne.symm h0)
      have hfpos : (0 : ℝ) < (f : ℝ) := by
        have : 0 < f := Nat.lt_of_lt_of_le Nat.zero_lt_one hf
        exact_mod_cast this
      have hIpos : 0 < total / (f : ℝ) := div_pos htpos hfpos
      by_cases h2 : condenseLoop (total / (f : ℝ)) D 0 = []
      · rw [h2]
        simpa using hf
      · have hlt := condenseLoop_length_mul_lt (total / (f : ℝ)) D 0 hnn h2
        rw [zero_add, ← htotal, ← mul_div_assoc] at hlt
        have h3 := (div_lt_iff₀ hfpos).mp hlt
        rw [mul_comm total (f : ℝ)] at h3
        have hn : ((condenseLoop (total / (f : ℝ)) D 0).length : ℝ) < (f : ℝ) :=
          (mul_lt_mul_right htpos).mp h3
        have hn2 : (condenseLoop (total / (f : ℝ)) D 0).length < f := by exact_mod_cast hn
        simp only [List.length_cons]
        omega

/-- When every ring is nonempty, `condenseRings` succeeds and yields one
condensed ring per input ring. -/
lemma condenseRings_length (b : Bool) (f : ℕ) :
    ∀ (rs : List (List RawPoint)) (i : ℕ), (∀ r ∈ rs, r ≠ []) →
      ∃ out, condenseRings b f i rs = .ok out ∧ out.length = rs.length := by
  intro rs
  induction rs with
  | nil => intro i _; exact ⟨[], rfl, rfl⟩
  | cons r rest ih =>
    intro i h
    cases r with
    | nil => exact absurd rfl (h [] (List.mem_cons_self [] rest))
    | cons p0 rtl =>
      obtain ⟨out2, h2, hlen⟩ := ih (i + 1) (fun x hx => h x (List.mem_cons_of_mem _ hx))
      refine ⟨(⟨p0.1, p0.2, 0⟩ ::
        condenseLoop
          (((coordinatesWithDistances p0 rtl).map Coordinate.distance).sum /
            ((ringFrequency b f i : ℕ) : ℝ))
          (coordinatesWithDistances p0 rtl) 0) :: out2, ?_, by simp [hlen]⟩
      simp only [condenseRings, condenseRing, h2]

/-- Flattening a list of singleton lists preserves length. -/
lemma flatten_length_of_length_one {β : Type} :
    ∀ (L : List (List β)), (∀ x ∈ L, x.length = 1) → L.flatten.length = L.length := by
  intro L
  induction L with
  | nil => intro _; rfl
  | cons a t ih =>
    intro h
    have ha : a.length = 1 := h a (List.mem_cons_self a t)
    simp only [List.flatten_cons, List.length_append, List.length_cons,
      ih (fun x hx => h x (List.mem_cons_of_mem a hx)), ha]
    omega

/-! Claim theorems. -/

/-- C1, counterexample: when the boundary fetch returns no candidate (or a
candidate without a geometry), `getGeojsonCoordinates` yields the empty
ring list, and the pipeline does NOT succeed with a center-marker URL —
`generateMapUrl` surfaces the `NO_COORDINATES_FOUND` error to its caller. -/
theorem claim_C1_counterexample :
    getGeojsonCoordinates constants none = .ok []
    ∧ getGeojsonCoordinates constants (some ⟨none⟩) = .ok []
    ∧ generateMapUrl (fun _ => "") constants (some ⟨"Shropshire", some "County"⟩)
        (some "test-key") none = .error (.appError .NO_COORDINATES_FOUND) :=
  ⟨rfl, rfl, rfl⟩

/-- C1, amended: for every location whose boundary fetch returns no
candidate or a candidate without a geometry, `getGeojsonCoordinates`
returns the empty list of rings and `generateMapUrl` then fails with
`NO_COORDINATES_FOUND`: the absent boundary IS surfaced as an error to the
caller (it does not degrade to a center-marker URL; only a Point geometry,
which yields one empty ring, does that). -/
theorem claim_C1_amended_thm (fmt : ℝ → String) (c : Constants) (name tt key : String)
    (resp : Option OpenStreetMapResponse)
    (habsent : resp = none ∨ resp = some ⟨none⟩) :
    getGeojsonCoordinates c resp = .ok []
    ∧ generateMapUrl fmt c (some ⟨name, some tt⟩) (some key) resp =
        .error (.appError .NO_COORDINATES_FOUND) := by
  rcases habsent with rfl | rfl
  · exact ⟨rfl, rfl⟩
  · exact ⟨rfl, rfl⟩

/-- Witness for C1: the amended theorem applied to a concrete absent
response. -/
theorem claim_C1_witness :
    ((none : Option OpenStreetMapResponse) = none ∨
      (none : Option OpenStreetMapResponse) = some ⟨none⟩)
    ∧ (getGeojsonCoordinates constants none = .ok []
      ∧ generateMapUrl (fun _ => "") constants (some ⟨"Birmingham", some "City"⟩)
          (some "k") none = .error (.appError .NO_COORDINATES_FOUND)) :=
  ⟨Or.inl rfl,
    claim_C1_amended_thm (fun _ => "") constants "Birmingham" "City" "k" none (Or.inl rfl)⟩

/-- C2, counterexample: a ring of three identical points has total planar
distance 0, yet condensation keeps ONLY the first point (output length 1,
not 3): the accumulator stays at 0 and the strict comparison `0 > 0` never
fires, so no subsequent point is retained. -/
theorem claim_C2_counterexample :
    condenseRing 200 [((0 : ℝ), (0 : ℝ)), ((0 : ℝ), (0 : ℝ)), ((0 : ℝ), (0 : ℝ))] =
      .ok [⟨0, 0, 0⟩]
    ∧ ([(⟨0, 0, 0⟩ : Coordinate ℝ)]).length ≠
        ([((0 : ℝ), (0 : ℝ)), ((0 : ℝ), (0 : ℝ)), ((0 : ℝ), (0 : ℝ))]).length := by
  constructor
  · norm_num [condenseRing, coordinatesWithDistances, calculateCoordinateSeparation,
      condenseLoop, Real.sqrt_zero]
  · decide

/-- C2, amended: for every ring whose total planar distance is 0, the
interval budget is 0 and the accumulator never strictly exceeds it, so
condensation keeps ONLY the first point (dropping every other point), the
opposite of keeping every point. -/
theorem claim_C2_amended_thm (f : ℕ) (p0 : RawPoint) (rest : List RawPoint)
    (h0 : ((coordinatesWithDistances p0 rest).map Coordinate.distance).sum = 0) :
    condenseRing f (p0 :: rest) = .ok [⟨p0.1, p0.2, 0⟩] := by
  have hnn : ∀ c ∈ coordinatesWithDistances p0 rest, 0 ≤ c.distance :=
    mem_coordinatesWithDistances_nonneg p0 rest
  have hmapnn : ∀ x ∈ (coordinatesWithDistances p0 rest).map Coordinate.distance, 0 ≤ x := by
    intro x hx
    rcases List.mem_map.mp hx with ⟨y, hy, rfl⟩
    exact hnn y hy
  have hall : ∀ c ∈ coordinatesWithDistances p0 rest, c.distance = 0 := fun c hc =>
    sum_eq_zero_of_nonneg _ hmapnn h0 c.distance (List.mem_map_of_mem Coordinate.distance hc)
  simp only [condenseRing, h0, zero_div, Except.ok.injEq]
  rw [condenseLoop_zero (coordinatesWithDistances p0 rest) 0 hall (le_refl 0)]

/-- Witness for C2: the amended theorem applied to a degenerate two-point
ring of identical points. -/
theorem claim_C2_witness :
    ((coordinatesWithDistances ((0 : ℝ), (0 : ℝ)) [((0 : ℝ), (0 : ℝ))]).map
        Coordinate.distance).sum = 0
    ∧ condenseRing 200 [((0 : ℝ), (0 : ℝ)), ((0 : ℝ), (0 : ℝ))] = .ok [⟨0, 0, 0⟩] := by
  have h0 : ((coordinatesWithDistances ((0 : ℝ), (0 : ℝ)) [((0 : ℝ), (0 : ℝ))]).map
      Coordinate.distance).sum = 0 := by
    norm_num [coordinatesWithDistances, calculateCoordinateSeparation, Real.sqrt_zero]
  exact ⟨h0, claim_C2_amended_thm 200 ((0 : ℝ), (0 : ℝ)) [((0 : ℝ), (0 : ℝ))] h0⟩

/-- C4, counterexample: on the empty ring condensation does NOT succeed:
`polygon[0][0]` reads a property of `undefined` and throws a `TypeError`
(there is also no "single kept point" to return). -/
theorem claim_C4_counterexample :
    condenseCoordinates constants (.polygon [[]]) = .error .typeError
    ∧ condenseRing 200 ([] : List RawPoint) = .error .typeError :=
  ⟨rfl, rfl⟩

/-- C4, amended: for every ring with exactly one point, condensation
succeeds without any failure or division by zero and produces just that
single kept point with distance 0 (the interval budget collapses to 0 and
no comparison against it is ever made); the empty ring instead raises a
TypeError. -/
theorem claim_C4_amended_thm (c : Constants) (f : ℕ) (p : RawPoint) :
    condenseRing f [p] = .ok [⟨p.1, p.2, 0⟩]
    ∧ condenseCoordinates c (.polygon [[p]]) = .ok [[⟨p.1, p.2, 0⟩]] :=
  ⟨rfl, rfl⟩

/-- C5: for every input ring and its applicable frequency (200 for
ordinary rings with the default constants, 10 for MultiPolygon rings at
position index greater than 1), the condensed output ring contains at most
`frequency` points: each threshold-kept point consumes accumulated
distance strictly greater than `totalDistance / frequency` over disjoint
segments, so at most `frequency - 1` points follow the always-kept first
point. -/
theorem claim_C5_ring_length_bounded (isMulti : Bool) (index : ℕ) (ring : List RawPoint)
    (out : List (Coordinate ℝ))
    (h : condenseRing (ringFrequency isMulti constants.DISTANCE_INTERVAL_FREQUENCY index) ring =
      .ok out) :
    out.length ≤ ringFrequency isMulti constants.DISTANCE_INTERVAL_FREQUENCY index := by
  refine condenseRing_length_le _ ?_ ring out h
  unfold ringFrequency
  split
  · decide
  · decide

/-- Witness for C5: the bound applied to a concrete one-point ring with
the ordinary frequency. -/
theorem claim_C5_witness :
    condenseRing (ringFrequency false constants.DISTANCE_INTERVAL_FREQUENCY 0)
        [((0 : ℝ), (0 : ℝ))] = .ok [⟨0, 0, 0⟩]
    ∧ ([(⟨0, 0, 0⟩ : Coordinate ℝ)]).length ≤
        ringFrequency false constants.DISTANCE_INTERVAL_FREQUENCY 0 :=
  ⟨rfl, claim_C5_ring_length_bounded false 0 [((0 : ℝ), (0 : ℝ))] [⟨0, 0, 0⟩] rfl⟩

/-- C6: for every non-empty input ring and every frequency, the condensed
output starts with exactly the first raw coordinate of the source ring
(same longitude and latitude, distance 0); the first point is never
dropped. -/
theorem claim_C6_first_point_kept (f : ℕ) (p0 : RawPoint) (rest : List RawPoint) :
    ∃ tl, condenseRing f (p0 :: rest) = .ok (⟨p0.1, p0.2, 0⟩ :: tl) :=
  ⟨_, rfl⟩

/-- C3, counterexample: a MultiPolygon with K = 1 sub-polygon whose
sub-polygon has two rings produces 2 condensed rings, not K = 1:
`rawCoordinates.push(...polygon)` flattens ALL rings of each kept
sub-polygon, so the output has one ring per ring, not one per
sub-polygon. -/
theorem claim_C3_counterexample :
    (condenseCoordinates constants
        (.multiPolygon [[[((0 : ℝ), (0 : ℝ))], [((1 : ℝ), (1 : ℝ))]]])).map List.length =
      .ok 2
    ∧ (2 : ℕ) ≠ 1 :=
  ⟨rfl, by decide⟩

/-- C3, amended: condense returns one CondensedRing per RING of each kept
sub-polygon (all rings of a kept sub-polygon are flattened into the
output).  In particular, when every sub-polygon consists of exactly one
nonempty ring, a MultiPolygon with K sub-polygons yields exactly
`min K MAX_POLYGON_COUNT` condensed rings. -/
theorem claim_C3_amended_thm (c : Constants) (polys : List (List (List RawPoint)))
    (h1 : ∀ poly ∈ polys, poly.length = 1)
    (h2 : ∀ poly ∈ polys, ∀ r ∈ poly, r ≠ []) :
    ∃ out, condenseCoordinates c (.multiPolygon polys) = .ok out
      ∧ out.length = min polys.length c.MAX_POLYGON_COUNT := by
  have hperm : (sortPolygonsByFirstRingLength polys).Perm polys :=
    List.perm_insertionSort _ polys
  have hmem : ∀ poly ∈ (sortPolygonsByFirstRingLength polys).take c.MAX_POLYGON_COUNT,
      poly ∈ polys := fun poly hp => hperm.mem_iff.mp (List.mem_of_mem_take hp)
  have hne : ∀ r ∈ ((sortPolygonsByFirstRingLength polys).take c.MAX_POLYGON_COUNT).flatten,
      r ≠ [] := by
    intro r hr
    rcases List.mem_flatten.mp hr with ⟨poly, hpoly, hrp⟩
    exact h2 poly (hmem poly hpoly) r hrp
  obtain ⟨out, hok, hlen⟩ := condenseRings_length true c.DISTANCE_INTERVAL_FREQUENCY
    ((sortPolygonsByFirstRingLength polys).take c.MAX_POLYGON_COUNT).flatten 0 hne
  refine ⟨out, hok, ?_⟩
  rw [hlen,
    flatten_length_of_length_one _ (fun x hx => h1 x (hmem x hx)),
    List.length_take, hperm.length_eq, Nat.min_comm]

/-- Witness for C3: the amended theorem applied to a single
single-ring sub-polygon. -/
theorem claim_C3_witness :
    (∀ poly ∈ ([[[((0 : ℝ), (0 : ℝ))]]] : List (List (List RawPoint))), poly.length = 1)
    ∧ (∀ poly ∈ ([[[((0 : ℝ), (0 : ℝ))]]] : List (List (List RawPoint))),
        ∀ r ∈ poly, r ≠ [])
    ∧ ∃ out, condenseCoordinates constants (.multiPolygon [[[((0 : ℝ), (0 : ℝ))]]]) = .ok out
        ∧ out.length =
            min ([[[((0 : ℝ), (0 : ℝ))]]] : List (List (List RawPoint))).length
              constants.MAX_POLYGON_COUNT := by
  have h1 : ∀ poly ∈ ([[[((0 : ℝ), (0 : ℝ))]]] : List (List (List RawPoint))),
      poly.length = 1 := by
    intro poly hp
    rw [List.mem_singleton] at hp
    subst hp
    rfl
  have h2 : ∀ poly ∈ ([[[((0 : ℝ), (0 : ℝ))]]] : List (List (List RawPoint))),
      ∀ r ∈ poly, r ≠ [] := by
    intro poly hp r hr
    rw [List.mem_singleton] at hp
    subst hp
    rw [List.mem_singleton] at hr
    subst hr
    simp
  exact ⟨h1, h2, claim_C3_amended_thm constants [[[((0 : ℝ), (0 : ℝ))]]] h1 h2⟩

/-- C9, counterexample: whitespace immediately BEFORE a comma is not
stripped; it is converted to a plus sign like any other whitespace, so
`buildEncodedCanonicalName "a , b"` is `"a+,b"`, not the `"a,b"` the
claim's "either side" stripping would require. -/
theorem claim_C9_counterexample :
    buildEncodedCanonicalName "a , b" = "a+,b"
    ∧ buildEncodedCanonicalName "a , b" ≠ "a,b" :=
  ⟨by decide, by decide⟩

/-- C9, amended: the encoder strips a single whitespace character
immediately FOLLOWING each run of commas (collapsing the run to one
comma) and converts all other whitespace — including whitespace before
commas — to plus signs; both example equalities of the claim hold. -/
theorem claim_C9_amended_thm :
    buildEncodedCanonicalName "SY7, Shropshire, England" = "SY7,Shropshire,England"
    ∧ buildEncodedCanonicalName "Nottingham Forest, Great Britain, United Kingdom" =
        "Nottingham+Forest,Great+Britain,United+Kingdom" :=
  ⟨by decide, by decide⟩

/-- C10: for every non-empty input ring, the condensed output is an
order-preserving sublist of the ring's points annotated with their
original predecessor distances: no point is invented, order and indices
are preserved, and each element's distance field is the planar separation
from its immediate predecessor in the original ring (0 for the first
element).  The second conjunct characterises the annotated list as the
zip of each point with its predecessor. -/
theorem claim_C10_output_sublist (f : ℕ) (p0 : RawPoint) (rest : List RawPoint)
    (out : List (Coordinate ℝ)) (h : condenseRing f (p0 :: rest) = .ok out) :
    List.Sublist out (⟨p0.1, p0.2, 0⟩ :: coordinatesWithDistances p0 rest)
    ∧ coordinatesWithDistances p0 rest =
        List.zipWith (fun a b => (⟨a.1, a.2, calculateCoordinateSeparation a b⟩ : Coordinate ℝ))
          rest (p0 :: rest) := by
  simp only [condenseRing, Except.ok.injEq] at h
  subst h
  exact ⟨List.Sublist.cons₂ _ (condenseLoop_sublist _ _ 0),
    coordinatesWithDistances_eq_zipWith p0 rest⟩

/-- Witness for C10: the sublist property applied to a concrete one-point
ring. -/
theorem claim_C10_witness :
    condenseRing 10 [((2 : ℝ), (3 : ℝ))] = .ok [⟨2, 3, 0⟩]
    ∧ (List.Sublist [(⟨2, 3, 0⟩ : Coordinate ℝ)]
        (⟨((2 : ℝ), (3 : ℝ)).1, ((2 : ℝ), (3 : ℝ)).2, 0⟩ ::
          coordinatesWithDistances ((2 : ℝ), (3 : ℝ)) [])
      ∧ coordinatesWithDistances ((2 : ℝ), (3 : ℝ)) [] =
          List.zipWith
            (fun a b => (⟨a.1, a.2, calculateCoordinateSeparation a b⟩ : Coordinate ℝ))
            [] [((2 : ℝ), (3 : ℝ))]) :=
  ⟨rfl, claim_C10_output_sublist 10 ((2 : ℝ), (3 : ℝ)) [] [⟨2, 3, 0⟩] rfl⟩

/-- C7: MultiPolygon sub-polygons are sorted by first-ring point count in
descending order (first conjunct: the sort used by `condenseCoordinates`
always yields a descending list) and only the top `MAX_POLYGON_COUNT` are
kept.  In particular, with `MAX_POLYGON_COUNT = 2` and three sub-polygons
of raw point counts 3, 5 and 2, the output has exactly the two condensed
rings of lengths 5 then 3 (largest first, third polygon discarded). -/
theorem claim_C7_multipolygon_sort_and_cap :
    (∀ polys : List (List (List RawPoint)),
      List.Sorted (fun a b => (b.headD []).length ≤ (a.headD []).length)
        (sortPolygonsByFirstRingLength polys))
    ∧ (condenseCoordinates ⟨200, 2⟩
        (.multiPolygon
          [[[((0 : ℝ), (0 : ℝ)), ((3 : ℝ), (4 : ℝ)), ((6 : ℝ), (8 : ℝ))]],
           [[((0 : ℝ), (0 : ℝ)), ((3 : ℝ), (4 : ℝ)), ((6 : ℝ), (8 : ℝ)),
             ((9 : ℝ), (12 : ℝ)), ((12 : ℝ), (16 : ℝ))]],
           [[((0 : ℝ), (0 : ℝ)), ((3 : ℝ), (4 : ℝ))]]])).map
        (fun out => out.map List.length) = .ok [5, 3] := by
  constructor
  · intro polys
    letI : IsTotal (List (List RawPoint))
        (fun a b => (b.headD []).length ≤ (a.headD []).length) :=
      ⟨fun a b => Nat.le_total _ _⟩
    letI : IsTrans (List (List RawPoint))
        (fun a b => (b.headD []).length ≤ (a.headD []).length) :=
      ⟨fun a b c hab hbc => le_trans hbc hab⟩
    exact List.sorted_insertionSort _ polys
  · have hs1 : calculateCoordinateSeparation ((3 : ℝ), (4 : ℝ)) ((0 : ℝ), (0 : ℝ)) = 5 :=
      calculateCoordinateSeparation_eq 3 4 0 0 5 (by norm_num) (by norm_num)
    have hs2 : calculateCoordinateSeparation ((6 : ℝ), (8 : ℝ)) ((3 : ℝ), (4 : ℝ)) = 5 :=
      calculateCoordinateSeparation_eq 6 8 3 4 5 (by norm_num) (by norm_num)
    have hs3 : calculateCoordinateSeparation ((9 : ℝ), (12 : ℝ)) ((6 : ℝ), (8 : ℝ)) = 5 :=
      calculateCoordinateSeparation_eq 9 12 6 8 5 (by norm_num) (by norm_num)
    have hs4 : calculateCoordinateSeparation ((12 : ℝ), (16 : ℝ)) ((9 : ℝ), (12 : ℝ)) = 5 :=
      calculateCoordinateSeparation_eq 12 16 9 12 5 (by norm_num) (by norm_num)
    have hcwd5 : coordinatesWithDistances ((0 : ℝ), (0 : ℝ))
        [((3 : ℝ), (4 : ℝ)), ((6 : ℝ), (8 : ℝ)), ((9 : ℝ), (12 : ℝ)), ((12 : ℝ), (16 : ℝ))] =
        [⟨3, 4, 5⟩, ⟨6, 8, 5⟩, ⟨9, 12, 5⟩, ⟨12, 16, 5⟩] := by
      simp only [coordinatesWithDistances]
      rw [hs1, hs2, hs3, hs4]
    have hcwd3 : coordinatesWithDistances ((0 : ℝ), (0 : ℝ))
        [((3 : ℝ), (4 : ℝ)), ((6 : ℝ), (8 : ℝ))] = [⟨3, 4, 5⟩, ⟨6, 8, 5⟩] := by
      simp only [coordinatesWithDistances]
      rw [hs1, hs2]
    have hr5 : condenseRing (ringFrequency true 200 0)
        [((0 : ℝ), (0 : ℝ)), ((3 : ℝ), (4 : ℝ)), ((6 : ℝ), (8 : ℝ)),
         ((9 : ℝ), (12 : ℝ)), ((12 : ℝ), (16 : ℝ))] =
        .ok [⟨0, 0, 0⟩, ⟨3, 4, 5⟩, ⟨6, 8, 5⟩, ⟨9, 12, 5⟩, ⟨12, 16, 5⟩] := by
      rw [show ringFrequency true 200 0 = 200 from rfl]
      simp only [condenseRing, hcwd5, Except.ok.injEq]
      norm_num [condenseLoop]
    have hr3 : condenseRing (ringFrequency true 200 1)
        [((0 : ℝ), (0 : ℝ)), ((3 : ℝ), (4 : ℝ)), ((6 : ℝ), (8 : ℝ))] =
        .ok [⟨0, 0, 0⟩, ⟨3, 4, 5⟩, ⟨6, 8, 5⟩] := by
      rw [show ringFrequency true 200 1 = 200 from rfl]
      simp only [condenseRing, hcwd3, Except.ok.injEq]
      norm_num [condenseLoop]
    have hred : condenseCoordinates ⟨200, 2⟩
        (.multiPolygon
          [[[((0 : ℝ), (0 : ℝ)), ((3 : ℝ), (4 : ℝ)), ((6 : ℝ), (8 : ℝ))]],
           [[((0 : ℝ), (0 : ℝ)), ((3 : ℝ), (4 : ℝ)), ((6 : ℝ), (8 : ℝ)),
             ((9 : ℝ), (12 : ℝ)), ((12 : ℝ), (16 : ℝ))]],
           [[((0 : ℝ), (0 : ℝ)), ((3 : ℝ), (4 : ℝ))]]]) =
        condenseRings true 200 0
          [[((0 : ℝ), (0 : ℝ)), ((3 : ℝ), (4 : ℝ)), ((6 : ℝ), (8 : ℝ)),
            ((9 : ℝ), (12 : ℝ)), ((12 : ℝ), (16 : ℝ))],
           [((0 : ℝ), (0 : ℝ)), ((3 : ℝ), (4 : ℝ)), ((6 : ℝ), (8 : ℝ))]] := rfl
    rw [hred]
    simp only [condenseRings, zero_add, hr5, hr3, Except.map]
    rfl

/-- C8: the shape builder fails with `NO_COORDINATES_FOUND` exactly when
the ring list is empty (first two conjuncts), and otherwise emits per ring
in order a closed-path fragment (each point as `lat,lon`, first point
repeated at the end) when the ring has more than 2 points, and a
`center=<encoded name>` fragment when it has 2 or fewer.  Concretely, the
4-point ring `[(1,1),(2,2),(3,3),(4,4)]` yields a string ending in
`|1,1|2,2|3,3|4,4|1,1`, and a 2-point ring yields a string ending in
`&center=Belsize+Park`. -/
theorem claim_C8_shape_builder :
    (∀ (α : Type) (fmt : α → String) (loc : Location),
      buildLocationShape fmt loc ([] : List (List (Coordinate α))) =
        .error (.appError .NO_COORDINATES_FOUND))
    ∧ (∀ (α : Type) (fmt : α → String) (loc : Location)
        (rings : List (List (Coordinate α))), rings ≠ [] →
        ∃ s, buildLocationShape fmt loc rings = .ok s)
    ∧ (∃ t, buildLocationShape (fun n : ℤ => toString n) ⟨"Belsize Park", none⟩
          [[⟨1, 1, 0⟩, ⟨2, 2, 0⟩, ⟨3, 3, 0⟩, ⟨4, 4, 0⟩]] =
        .ok (t ++ "|1,1|2,2|3,3|4,4|1,1"))
    ∧ (∃ t, buildLocationShape (fun n : ℤ => toString n) ⟨"Belsize Park", none⟩
          [[⟨1, 1, 0⟩, ⟨2, 2, 0⟩]] = .ok (t ++ "&center=Belsize+Park")) := by
  refine ⟨fun α fmt loc => rfl, ?_, ?_, ?_⟩
  · intro α fmt loc rings hne
    have hlen : ¬ (rings.length = 0) := fun h => hne (List.length_eq_zero.mp h)
    rw [buildLocationShape, if_neg hlen]
    exact ⟨_, rfl⟩
  · refine ⟨style ++ pathStyle, ?_⟩
    have hval : buildLocationShape (fun n : ℤ => toString n) ⟨"Belsize Park", none⟩
        [[(⟨1, 1, 0⟩ : Coordinate ℤ), ⟨2, 2, 0⟩, ⟨3, 3, 0⟩, ⟨4, 4, 0⟩]] =
        .ok (style ++
          (pathStyle ++ "|" ++ toString (1 : ℤ) ++ "," ++ toString (1 : ℤ) ++ "|" ++
            toString (2 : ℤ) ++ "," ++ toString (2 : ℤ) ++ "|" ++ toString (3 : ℤ) ++ "," ++
            toString (3 : ℤ) ++ "|" ++ toString (4 : ℤ) ++ "," ++ toString (4 : ℤ)) ++
          ("|" ++ toString (1 : ℤ) ++ "," ++ toString (1 : ℤ))) := rfl
    have hsmall : (pathStyle ++ "|" ++ toString (1 : ℤ) ++ "," ++ toString (1 : ℤ) ++ "|" ++
          toString (2 : ℤ) ++ "," ++ toString (2 : ℤ) ++ "|" ++ toString (3 : ℤ) ++ "," ++
          toString (3 : ℤ) ++ "|" ++ toString (4 : ℤ) ++ "," ++ toString (4 : ℤ)) ++
        ("|" ++ toString (1 : ℤ) ++ "," ++ toString (1 : ℤ)) =
        pathStyle ++ "|1,1|2,2|3,3|4,4|1,1" := by decide
    exact hval.trans (congrArg Except.ok
      ((String.append_assoc style
          (pathStyle ++ "|" ++ toString (1 : ℤ) ++ "," ++ toString (1 : ℤ) ++ "|" ++
            toString (2 : ℤ) ++ "," ++ toString (2 : ℤ) ++ "|" ++ toString (3 : ℤ) ++ "," ++
            toString (3 : ℤ) ++ "|" ++ toString (4 : ℤ) ++ "," ++ toString (4 : ℤ))
          ("|" ++ toString (1 : ℤ) ++ "," ++ toString (1 : ℤ))).trans
        ((congrArg (fun x => style ++ x) hsmall).trans
          (String.append_assoc style pathStyle "|1,1|2,2|3,3|4,4|1,1").symm)))
  · refine ⟨style, ?_⟩
    have hval : buildLocationShape (fun n : ℤ => toString n) ⟨"Belsize Park", none⟩
        [[(⟨1, 1, 0⟩ : Coordinate ℤ), ⟨2, 2, 0⟩]] =
        .ok (style ++ "&center=" ++ buildEncodedCanonicalName "Belsize Park") := rfl
    exact hval.trans (congrArg Except.ok
      ((String.append_assoc style "&center=" (buildEncodedCanonicalName "Belsize Park")).trans
        (congrArg (fun x => style ++ x) (by decide))))

/-- Witness for C8: the nonempty-success conjunct applied to a concrete
one-ring input. -/
theorem claim_C8_witness :
    ([[(⟨1, 1, 0⟩ : Coordinate ℤ)]] : List (List (Coordinate ℤ))) ≠ []
    ∧ ∃ s, buildLocationShape (fun n : ℤ => toString n) ⟨"Belsize Park", none⟩
        [[(⟨1, 1, 0⟩ : Coordinate ℤ)]] = .ok s :=
  ⟨by decide,
    claim_C8_shape_builder.2.1 ℤ (fun n : ℤ => toString n) ⟨"Belsize Park", none⟩
      [[⟨1, 1, 0⟩]] (by decide)⟩

end Opteo
